import Mathlib

/-!
Verification of the task-scheduling core and process-control syscalls of an
rCore-style kernel (files `src/os/src/task/processor.rs` and
`src/os/src/syscall/process.rs`), as a shallow embedding in Lean 4.

Machine integers (`usize`) are modelled as `Nat`; `isize` results as `Int`.
External collaborators (the timer, the address translator, the TCB-level
mmap/munmap delegates, the ready-queue manager) are modelled as parameters
or, where a claim depends on them, from the specification's description.
-/

namespace RCore

/-- `config::PAGE_SIZE`. Modelled from the spec: the kernel configuration
file is outside the covered sources; the spec speaks of "the page size",
the standard value for this kernel family is 4096 bytes. -/
def PAGE_SIZE : Nat := 4096

/-- `config::MAX_SYSCALL_NUM`. Modelled from the spec: the configuration
file is outside the covered sources; the spec only requires a fixed table
length, the standard value for this kernel family is 500. -/
def MAX_SYSCALL_NUM : Nat := 500

/-- Task status tags exercised by this core (`TaskStatus` in the task
module; per spec §3 the core requires `Ready`, `Running`, `Exited`). -/
inductive TaskStatus where
  | Ready
  | Running
  | Exited
deriving DecidableEq, Repr

/-! ## Scheduler-level model (processor.rs `run_tasks` and the task life cycle)

The per-task inner state that `run_tasks` touches (`task_status`,
`start_time`), the Processor's `current` slot, the ready queue and the
microsecond clock, together with a step relation.  The `dispatch` step is
the body of one successful `fetch_task` iteration of `run_tasks`
(processor.rs lines 94-111); `suspendStep`/`exitStep` are the external
suspend/exit paths, modelled from the spec (§4.3, §4.4: yield "marks the
current task Ready (via external suspend path) and switches to the
scheduler"; exit relinquishes the TCB permanently via `take_current`). -/

abbrev TaskId := Nat

/-- The fields of a TCB's inner state that the dispatch loop reads and
writes (`task_status`, `start_time`); the rest of the TCB is opaque here. -/
structure TaskInner where
  task_status : TaskStatus
  start_time : Nat
deriving DecidableEq, Repr

/-- Kernel state for the scheduling claims: every task's inner state, the
ready queue, the Processor's `current` slot, whether control is in the
scheduler's idle flow (`run_tasks`), and the microsecond timer. -/
structure KernelState where
  tasks : TaskId → TaskInner
  ready_queue : List TaskId
  current : Option TaskId
  in_idle : Bool
  clock : Nat

/-- Effect of one successful `run_tasks` iteration on the fetched task
`tid` (processor.rs lines 97-106): set its status to `Running`, stamp
`start_time` with the timer value if and only if it is still `0`, install
it as `current`, and transfer control out of the idle flow. -/
def dispatchUpdate (s : KernelState) (tid : TaskId) (rest : List TaskId) : KernelState :=
  { s with
    tasks := fun t =>
      if t = tid then
        { task_status := TaskStatus.Running
          start_time :=
            if (s.tasks tid).start_time = 0 then s.clock else (s.tasks tid).start_time }
      else s.tasks t
    ready_queue := rest
    current := some tid
    in_idle := false }

/-- Modelled from the spec: effect of the external suspend path invoked by
`sys_yield` (`suspend_current_and_run_next`, outside the covered sources):
mark the current task `Ready`, re-queue it, take it out of `current`, and
return control to the idle flow via `schedule`. -/
def suspendUpdate (s : KernelState) (tid : TaskId) : KernelState :=
  { s with
    tasks := fun t =>
      if t = tid then { s.tasks t with task_status := TaskStatus.Ready }
      else s.tasks t
    ready_queue := s.ready_queue ++ [tid]
    current := none
    in_idle := true }

/-- Modelled from the spec: effect of the external exit path invoked by
`sys_exit` (`exit_current_and_run_next`, outside the covered sources):
mark the current task `Exited`, take it out of `current`, and return
control to the idle flow via `schedule`. -/
def exitUpdate (s : KernelState) (tid : TaskId) : KernelState :=
  { s with
    tasks := fun t =>
      if t = tid then { s.tasks t with task_status := TaskStatus.Exited }
      else s.tasks t
    current := none
    in_idle := true }

/-- One step of the kernel: the monotonic timer advancing, a dispatch by
`run_tasks` (enabled only while control is in the idle flow, exactly the
control-flow guarantee of processor.rs), or the suspend/exit paths
(enabled only while a task is current and control is in its flow). -/
inductive Step : KernelState → KernelState → Prop where
  | tick (s : KernelState) (d : Nat) :
      Step s { s with clock := s.clock + d }
  | dispatch (s : KernelState) (tid : TaskId) (rest : List TaskId) :
      s.in_idle = true → s.ready_queue = tid :: rest →
      Step s (dispatchUpdate s tid rest)
  | suspendStep (s : KernelState) (tid : TaskId) :
      s.in_idle = false → s.current = some tid →
      Step s (suspendUpdate s tid)
  | exitStep (s : KernelState) (tid : TaskId) :
      s.in_idle = false → s.current = some tid →
      Step s (exitUpdate s tid)

/-- Boot state: the Processor is created with `current = None` on the idle
flow, every task is created `Ready` with `start_time = 0`, and the
monotonic clock starts at `0`; the initial ready queue is arbitrary. -/
def KernelState.Init (s : KernelState) : Prop :=
  (∀ t, s.tasks t = { task_status := TaskStatus.Ready, start_time := 0 }) ∧
  s.current = none ∧ s.in_idle = true ∧ s.clock = 0

/-- States reachable from some boot state. -/
inductive Reachable : KernelState → Prop where
  | init (s : KernelState) : s.Init → Reachable s
  | step (s s₂ : KernelState) : Reachable s → Step s s₂ → Reachable s₂

/-- The C2 property at one instant: `current` is empty or holds a task
whose status is `Running`, and no two tasks are `Running` at once. -/
def CurrentInv (s : KernelState) : Prop :=
  (∀ t, s.current = some t → (s.tasks t).task_status = TaskStatus.Running) ∧
  (∀ t₁ t₂, (s.tasks t₁).task_status = TaskStatus.Running →
    (s.tasks t₂).task_status = TaskStatus.Running → t₁ = t₂)

/-- Strengthened inductive invariant: additionally, the idle flow never
holds a current task, and every `Running` task is the current one. -/
def StrongInv (s : KernelState) : Prop :=
  (∀ t, s.current = some t → (s.tasks t).task_status = TaskStatus.Running) ∧
  (∀ t, (s.tasks t).task_status = TaskStatus.Running → s.current = some t) ∧
  (s.in_idle = true → s.current = none)

theorem strongInv_init (s : KernelState) (h : s.Init) : StrongInv s := by
  obtain ⟨htasks, hcur, hidle, hclk⟩ := h
  refine ⟨?_, ?_, fun _ => hcur⟩
  · intro t ht
    rw [hcur] at ht
    exact absurd ht (by simp)
  · intro t ht
    rw [htasks t] at ht
    exact absurd ht (by simp)

theorem strongInv_step (s s₂ : KernelState) (h : StrongInv s) (hs : Step s s₂) :
    StrongInv s₂ := by
  obtain ⟨hcurRun, hRunCur, hidle⟩ := h
  cases hs with
  | tick d =>
      exact ⟨hcurRun, hRunCur, hidle⟩
  | dispatch tid rest hi hq =>
      have hnone : s.current = none := hidle hi
      refine ⟨?_, ?_, ?_⟩
      · intro t ht
        simp only [dispatchUpdate] at ht ⊢
        have : t = tid := by
          have := ht
          simp only [Option.some.injEq] at this
          exact this.symm
        subst this
        simp
      · intro t ht
        simp only [dispatchUpdate] at ht ⊢
        by_cases htid : t = tid
        · simp [htid]
        · simp only [if_neg htid] at ht
          have := hRunCur t ht
          rw [hnone] at this
          exact absurd this (by simp)
      · intro hcontra
        simp only [dispatchUpdate] at hcontra
        exact absurd hcontra (by simp)
  | suspendStep tid hi hc =>
      refine ⟨?_, ?_, fun _ => rfl⟩
      · intro t ht
        simp only [suspendUpdate] at ht
        exact absurd ht (by simp)
      · intro t ht
        simp only [suspendUpdate] at ht
        by_cases htid : t = tid
        · simp only [if_pos htid] at ht
          exact absurd ht (by simp)
        · simp only [if_neg htid] at ht
          have := hRunCur t ht
          rw [hc] at this
          have : t = tid := by simpa using this.symm
          exact absurd this htid
  | exitStep tid hi hc =>
      refine ⟨?_, ?_, fun _ => rfl⟩
      · intro t ht
        simp only [exitUpdate] at ht
        exact absurd ht (by simp)
      · intro t ht
        simp only [exitUpdate] at ht
        by_cases htid : t = tid
        · simp only [if_pos htid] at ht
          exact absurd ht (by simp)
        · simp only [if_neg htid] at ht
          have := hRunCur t ht
          rw [hc] at this
          have : t = tid := by simpa using this.symm
          exact absurd this htid

theorem strongInv_reachable (s : KernelState) (h : Reachable s) : StrongInv s := by
  induction h with
  | init s hs => exact strongInv_init s hs
  | step s s₂ _ hstep ih => exact strongInv_step s s₂ ih hstep

/-- C2: at every reachable instant the Processor's `current` slot is empty
or holds exactly one task whose status is `Running`, no two tasks are
`Running` at the same time, and every dispatch step of `run_tasks` leaves
the fetched task with status `Running` installed as `current`. -/
theorem c2_current_running_unique (s : KernelState) (h : Reachable s) :
    CurrentInv s ∧
    (∀ tid rest,
      ((dispatchUpdate s tid rest).tasks tid).task_status = TaskStatus.Running ∧
      (dispatchUpdate s tid rest).current = some tid) := by
  obtain ⟨h₁, h₂, _⟩ := strongInv_reachable s h
  refine ⟨⟨h₁, ?_⟩, ?_⟩
  · intro t₁ t₂ r₁ r₂
    have e₁ := h₂ t₁ r₁
    have e₂ := h₂ t₂ r₂
    rw [e₁] at e₂
    exact (Option.some.injEq _ _ ▸ e₂).symm ▸ rfl
  · intro tid rest
    constructor
    · simp [dispatchUpdate]
    · rfl

/-- Boot state used to witness C2: two tasks queued, nothing dispatched. -/
def c2wState : KernelState :=
  { tasks := fun _ => { task_status := TaskStatus.Ready, start_time := 0 }
    ready_queue := [1, 2]
    current := none
    in_idle := true
    clock := 0 }

theorem c2_current_running_unique_witness :
    CurrentInv c2wState ∧
    (∀ tid rest,
      ((dispatchUpdate c2wState tid rest).tasks tid).task_status = TaskStatus.Running ∧
      (dispatchUpdate c2wState tid rest).current = some tid) :=
  c2_current_running_unique c2wState
    (Reachable.init c2wState ⟨fun _ => rfl, rfl, rfl, rfl⟩)

/-! ## C1: the `start_time` stamp

`run_tasks` stamps `start_time` with the timer whenever it is still `0`
(processor.rs lines 100-102).  If the timer reads `0` at a task's first
dispatch, the stamp leaves the field `0` and a later dispatch stamps it
again, so "never written again on any later dispatch" fails; the trace
below exhibits this.  The amended statement that does hold: `start_time`
changes only at a dispatch of the task while the field is still `0`, in
which case it becomes the current timer value — hence it is `0` at boot,
and once it holds a non-zero value it is never written again. -/

/-- Boot state for the C1 counterexample: one task (id 0), queue `[0]`,
timer at `0`. -/
def cexState0 : KernelState :=
  { tasks := fun _ => { task_status := TaskStatus.Ready, start_time := 0 }
    ready_queue := [0]
    current := none
    in_idle := true
    clock := 0 }

/-- First dispatch of task 0, at timer value `0`. -/
def cexState1 : KernelState := dispatchUpdate cexState0 0 []

/-- Task 0 yields (suspend path re-queues it). -/
def cexState2 : KernelState := suspendUpdate cexState1 0

/-- The timer advances to `500` µs. -/
def cexState3 : KernelState := { cexState2 with clock := cexState2.clock + 500 }

/-- Second dispatch of task 0, at timer value `500`. -/
def cexState4 : KernelState := dispatchUpdate cexState3 0 []

/-- C1 counterexample: on the reachable trace in which task 0 is first
dispatched while the timer reads `0`, yields, and is re-dispatched at
timer `500`, the second dispatch writes `start_time` again: the field
holds `0` after the first dispatch but `500` after the second, refuting
"it is assigned the current timer value exactly once, and it is never
written again on any later dispatch of T". -/
theorem c1_start_time_counterexample :
    cexState0.Init ∧
    Step cexState0 cexState1 ∧ Step cexState1 cexState2 ∧
    Step cexState2 cexState3 ∧ Step cexState3 cexState4 ∧
    cexState1.current = some 0 ∧ (cexState1.tasks 0).start_time = cexState0.clock ∧
    cexState4.current = some 0 ∧ (cexState4.tasks 0).start_time = 500 ∧
    (cexState4.tasks 0).start_time ≠ (cexState1.tasks 0).start_time :=
  ⟨⟨fun _ => rfl, rfl, rfl, rfl⟩,
   Step.dispatch cexState0 0 [] rfl rfl,
   Step.suspendStep cexState1 0 rfl rfl,
   Step.tick cexState2 500,
   Step.dispatch cexState3 0 [] rfl rfl,
   rfl, rfl, rfl, by decide, by decide⟩

/-- C1 (amended): `start_time` is `0` at creation; a step changes a task's
`start_time` only if that step dispatches the task while the field is
still `0`, and then the field becomes the current timer value.  In
particular, a non-zero `start_time` is never written again, so the claim
as stated holds whenever the timer value at first dispatch is non-zero. -/
theorem c1_start_time_amended :
    (∀ s t, KernelState.Init s → (s.tasks t).start_time = 0) ∧
    (∀ s s₂ t, Step s s₂ →
      ((s.tasks t).start_time ≠ 0 →
        (s₂.tasks t).start_time = (s.tasks t).start_time) ∧
      ((s₂.tasks t).start_time ≠ (s.tasks t).start_time →
        (s.tasks t).start_time = 0 ∧ (s₂.tasks t).start_time = s.clock ∧
        s₂.current = some t ∧ (s₂.tasks t).task_status = TaskStatus.Running)) := by
  constructor
  · intro s t h
    rw [h.1 t]
  · intro s s₂ t hstep
    cases hstep with
    | tick d =>
        exact ⟨fun _ => rfl, fun hne => absurd rfl hne⟩
    | dispatch tid rest hi hq =>
        by_cases htid : t = tid
        · subst htid
          by_cases hz : (s.tasks t).start_time = 0
          · constructor
            · intro hne
              exact absurd hz hne
            · intro _
              refine ⟨hz, ?_, rfl, by simp [dispatchUpdate]⟩
              simp [dispatchUpdate, hz]
          · constructor
            · intro _
              simp [dispatchUpdate, hz]
            · intro hne
              exact absurd (by simp [dispatchUpdate, hz]) hne
        · constructor
          · intro _
            simp [dispatchUpdate, htid]
          · intro hne
            exact absurd (by simp [dispatchUpdate, htid]) hne
    | suspendStep tid hi hc =>
        by_cases htid : t = tid
        · subst htid
          exact ⟨fun _ => by simp [suspendUpdate],
            fun hne => absurd (by simp [suspendUpdate]) hne⟩
        · exact ⟨fun _ => by simp [suspendUpdate, htid],
            fun hne => absurd (by simp [suspendUpdate, htid]) hne⟩
    | exitStep tid hi hc =>
        by_cases htid : t = tid
        · subst htid
          exact ⟨fun _ => by simp [exitUpdate],
            fun hne => absurd (by simp [exitUpdate]) hne⟩
        · exact ⟨fun _ => by simp [exitUpdate, htid],
            fun hne => absurd (by simp [exitUpdate, htid]) hne⟩

/-- State used to witness the amended C1 theorem: task 0 already carries
the non-zero stamp `42` and is queued for a second dispatch. -/
def c1wState : KernelState :=
  { tasks := fun t =>
      if t = 0 then { task_status := TaskStatus.Ready, start_time := 42 }
      else { task_status := TaskStatus.Ready, start_time := 0 }
    ready_queue := [0]
    current := none
    in_idle := true
    clock := 99 }

theorem c1_start_time_amended_witness :
    (cexState0.tasks 3).start_time = 0 ∧
    ((dispatchUpdate c1wState 0 []).tasks 0).start_time = (c1wState.tasks 0).start_time :=
  ⟨c1_start_time_amended.1 cexState0 3 ⟨fun _ => rfl, rfl, rfl, rfl⟩,
   (c1_start_time_amended.2 c1wState (dispatchUpdate c1wState 0 []) 0
      (Step.dispatch c1wState 0 [] rfl rfl)).1 (by decide)⟩

/-! ## Syscall validation: `sys_mmap` and `sys_munmap`

`sys_mmap` (process.rs lines 78-89) rejects a misaligned `start`, then
`prot & !0x7 != 0 || prot == 0`, before delegating to
`mmap_current_task`; `sys_munmap` (lines 91-97) rejects only a misaligned
`start`.  The delegate is a function parameter, so "without invoking the
delegate" is provable as independence of the result from the delegate. -/

/-- The 64-bit `usize` constant `!0x7`: every bit except bits 0-2. -/
def NOT_SEVEN : Nat := 0xFFFFFFFFFFFFFFF8

theorem not_seven_testBit (i : Nat) :
    NOT_SEVEN.testBit i = (decide (3 ≤ i) && decide (i < 64)) := by
  have h : NOT_SEVEN = 2 ^ 3 * (2 ^ 61 - 1) := by norm_num [NOT_SEVEN]
  rw [h, Nat.testBit_mul_pow_two, Nat.testBit_two_pow_sub_one]
  by_cases h₃ : 3 ≤ i
  · have h₆ : (i - 3 < 61) ↔ i < 64 := by omega
    simp [ge_iff_le, h₃, h₆]
  · simp [ge_iff_le, h₃]

/-- For a 64-bit `usize` value, `prot & !0x7 == 0` holds exactly when only
bits 0-2 of `prot` are set, i.e. `prot < 8`. -/
theorem land_not_seven_eq_zero_iff {prot : Nat} (h : prot < 2 ^ 64) :
    prot &&& NOT_SEVEN = 0 ↔ prot < 8 := by
  constructor
  · intro hz
    by_contra hge
    push_neg at hge
    have h₈ : prot ≥ 2 ^ 3 := by omega
    obtain ⟨i, hi₃, hbit⟩ := Nat.ge_two_pow_implies_high_bit_true h₈
    have hi64 : i < 64 := by
      by_contra hi
      push_neg at hi
      have : prot < 2 ^ i :=
        lt_of_lt_of_le h (Nat.pow_le_pow_right (by norm_num) hi)
      rw [Nat.testBit_lt_two_pow this] at hbit
      exact Bool.false_ne_true hbit
    have : (prot &&& NOT_SEVEN).testBit i = true := by
      rw [Nat.testBit_and, hbit, not_seven_testBit]
      simp [hi₃, hi64]
    rw [hz, Nat.zero_testBit] at this
    exact Bool.false_ne_true this
  · intro hlt
    apply Nat.eq_of_testBit_eq
    intro i
    rw [Nat.testBit_and, not_seven_testBit, Nat.zero_testBit]
    by_cases h₃ : 3 ≤ i
    · have : prot < 2 ^ i :=
        lt_of_lt_of_le hlt (le_trans (by norm_num) (Nat.pow_le_pow_right (by norm_num) h₃))
      simp [Nat.testBit_lt_two_pow this]
    · simp [h₃]

/-- `sys_mmap` (process.rs lines 78-89); `delegate` models the current
TCB's `task.mmap` reached through `mmap_current_task`. -/
def sys_mmap (delegate : Nat → Nat → Nat → Int) (start len prot : Nat) : Int :=
  if start % PAGE_SIZE ≠ 0 then -1
  else if prot &&& NOT_SEVEN ≠ 0 ∨ prot = 0 then -1
  else delegate start len prot

/-- `sys_munmap` (process.rs lines 91-97); `delegate` models the current
TCB's `task.munmap` reached through `munmap_current_task`. -/
def sys_munmap (delegate : Nat → Nat → Int) (start len : Nat) : Int :=
  if start % PAGE_SIZE ≠ 0 then -1
  else delegate start len

/-- C3: for a `usize` protection word, `sys_mmap` returns `-1`
independently of the delegate whenever `start` is not page-aligned, some
bit of `prot` at position 3 or above is set (for a natural number that is
exactly `8 ≤ prot`), or `prot = 0`; when `start` is aligned and `prot` is
non-zero with only bits 0-2 set (`prot < 8`), it returns exactly the
delegate's result. -/
theorem c3_sys_mmap_validation (start len prot : Nat)
    (delegate : Nat → Nat → Nat → Int) (hp : prot < 2 ^ 64) :
    ((start % PAGE_SIZE ≠ 0 ∨ 8 ≤ prot ∨ prot = 0) →
      sys_mmap delegate start len prot = -1 ∧
      ∀ d₂ : Nat → Nat → Nat → Int, sys_mmap d₂ start len prot = -1) ∧
    (start % PAGE_SIZE = 0 → prot ≠ 0 → prot < 8 →
      sys_mmap delegate start len prot = delegate start len prot) := by
  constructor
  · intro hbad
    have key : ∀ d : Nat → Nat → Nat → Int, sys_mmap d start len prot = -1 := by
      intro d
      unfold sys_mmap
      rcases hbad with hmis | hhi | hz
      · rw [if_pos hmis]
      · have hmask : prot &&& NOT_SEVEN ≠ 0 := by
          intro hzero
          have := (land_not_seven_eq_zero_iff hp).mp hzero
          omega
        by_cases hmis : start % PAGE_SIZE ≠ 0
        · rw [if_pos hmis]
        · rw [if_neg hmis, if_pos (Or.inl hmask)]
      · by_cases hmis : start % PAGE_SIZE ≠ 0
        · rw [if_pos hmis]
        · rw [if_neg hmis, if_pos (Or.inr hz)]
    exact ⟨key delegate, key⟩
  · intro hal hnz hlt
    unfold sys_mmap
    rw [if_neg (by simpa using hal), if_neg ?_]
    push_neg
    exact ⟨(land_not_seven_eq_zero_iff hp).mpr hlt, hnz⟩

theorem c3_sys_mmap_validation_witness :
    sys_mmap (fun _ _ _ => 7) 5 10 2 = -1 ∧
    sys_mmap (fun _ _ _ => 7) 4096 10 8 = -1 ∧
    sys_mmap (fun _ _ _ => 7) 4096 10 2 = 7 :=
  ⟨((c3_sys_mmap_validation 5 10 2 (fun _ _ _ => 7) (by norm_num)).1
      (Or.inl (by norm_num [PAGE_SIZE]))).1,
   ((c3_sys_mmap_validation 4096 10 8 (fun _ _ _ => 7) (by norm_num)).1
      (Or.inr (Or.inl (by norm_num)))).1,
   ((c3_sys_mmap_validation 4096 10 2 (fun _ _ _ => 7) (by norm_num)).2
      (by norm_num [PAGE_SIZE]) (by norm_num) (by norm_num))⟩

/-! ## `sys_get_time` and `sys_task_info`

Kernel memory is modelled at machine-word granularity: a cell holds one
word and the address translator returns a cell index.  The timer is a
stream `Nat → Nat`; one `get_time_us()` call reads `timer 0`, so "samples
the timer once" is provable as dependence on `timer 0` alone. -/

/-- Machine memory at word granularity. -/
def Mem := Nat → Nat

/-- `TimeVal` (process.rs lines 14-19): two machine-word unsigned fields,
seconds then microseconds. -/
structure TimeVal where
  sec : Nat
  usec : Nat
deriving DecidableEq, Repr

/-- The store `*ts = TimeVal { sec, usec }`: seconds at the translated
cell, microseconds at the following cell. -/
def writeTimeVal (mem : Mem) (addr : Nat) (tv : TimeVal) : Mem :=
  fun a => if a = addr then tv.sec else if a = addr + 1 then tv.usec else mem a

/-- `sys_get_time` (process.rs lines 48-60): sample the timer once
(`get_time_us()`), translate `ts` through the current address space
(`translated_phisical_address(current_user_token(), ts)`), store
`TimeVal { sec: us / 1_000_000, usec: us % 1_000_000 }` there, return
`0`.  The final argument is the unused `_tz`. -/
def sys_get_time (timer : Nat → Nat) (token : Nat) (translate : Nat → Nat → Nat)
    (mem : Mem) (ts : Nat) (_tz : Nat) : Mem × Int :=
  let us := timer 0
  let pa := translate token ts
  (writeTimeVal mem pa { sec := us / 1000000, usec := us % 1000000 }, 0)

/-- C4: `sys_get_time` returns `0` and writes, at the translated address,
seconds `us / 1_000_000` then microseconds `us % 1_000_000` for the
single timer sample `us`, leaving every other cell unchanged; the result
depends only on the one sample `timer 0`. -/
theorem c4_sys_get_time_record (timer : Nat → Nat) (token : Nat)
    (translate : Nat → Nat → Nat) (mem : Mem) (ts tz : Nat) :
    (sys_get_time timer token translate mem ts tz).2 = 0 ∧
    (sys_get_time timer token translate mem ts tz).1 (translate token ts) =
      timer 0 / 1000000 ∧
    (sys_get_time timer token translate mem ts tz).1 (translate token ts + 1) =
      timer 0 % 1000000 ∧
    (∀ a, a ≠ translate token ts → a ≠ translate token ts + 1 →
      (sys_get_time timer token translate mem ts tz).1 a = mem a) ∧
    (∀ timer₂ : Nat → Nat, timer₂ 0 = timer 0 →
      sys_get_time timer₂ token translate mem ts tz =
        sys_get_time timer token translate mem ts tz) := by
  refine ⟨rfl, ?_, ?_, ?_, ?_⟩
  · simp [sys_get_time, writeTimeVal]
  · simp [sys_get_time, writeTimeVal]
  · intro a ha₀ ha₁
    simp [sys_get_time, writeTimeVal, ha₀, ha₁]
  · intro timer₂ h
    simp only [sys_get_time, h]

theorem c4_sys_get_time_record_witness :
    (sys_get_time (fun _ => 2500000) 0 (fun _ p => p + 10) (fun _ => 77) 3 0).2 = 0 ∧
    (sys_get_time (fun _ => 2500000) 0 (fun _ p => p + 10) (fun _ => 77) 3 0).1 13 =
      2500000 / 1000000 ∧
    (sys_get_time (fun _ => 2500000) 0 (fun _ p => p + 10) (fun _ => 77) 3 0).1 99 = 77 :=
  ⟨(c4_sys_get_time_record (fun _ => 2500000) 0 (fun _ p => p + 10)
      (fun _ => 77) 3 0).1,
   (c4_sys_get_time_record (fun _ => 2500000) 0 (fun _ p => p + 10)
      (fun _ => 77) 3 0).2.1,
   (c4_sys_get_time_record (fun _ => 2500000) 0 (fun _ p => p + 10)
      (fun _ => 77) 3 0).2.2.2.1 99 (by decide) (by decide)⟩

/-- C9: the memory record and return value of `sys_get_time` do not
depend on the `_tz` argument, which the body never reads. -/
theorem c9_sys_get_time_tz_independent (timer : Nat → Nat) (token : Nat)
    (translate : Nat → Nat → Nat) (mem : Mem) (ts : Nat) (tz₁ tz₂ : Nat) :
    sys_get_time timer token translate mem ts tz₁ =
      sys_get_time timer token translate mem ts tz₂ := rfl

/-- Store a list of words at consecutive cells starting at `addr`. -/
def writeSeq (mem : Mem) (addr : Nat) (xs : List Nat) : Mem :=
  match xs with
  | [] => mem
  | x :: rest => writeSeq (fun a => if a = addr then x else mem a) (addr + 1) rest

theorem writeSeq_lt (xs : List Nat) (mem : Mem) (addr a : Nat) (h : a < addr) :
    writeSeq mem addr xs a = mem a := by
  induction xs generalizing mem addr with
  | nil => rfl
  | cons x rest ih =>
      rw [writeSeq, ih _ _ (by omega)]
      rw [if_neg (by omega)]

theorem writeSeq_ge (xs : List Nat) (mem : Mem) (addr a : Nat)
    (h : addr + xs.length ≤ a) : writeSeq mem addr xs a = mem a := by
  induction xs generalizing mem addr with
  | nil => rfl
  | cons x rest ih =>
      rw [List.length_cons] at h
      rw [writeSeq, ih _ _ (by omega)]
      rw [if_neg (by omega)]

theorem writeSeq_get (xs : List Nat) (mem : Mem) (addr i : Nat)
    (h : i < xs.length) : writeSeq mem addr xs (addr + i) = xs.getD i 0 := by
  induction xs generalizing mem addr i with
  | nil => exact absurd h (by simp)
  | cons x rest ih =>
      cases i with
      | zero =>
          rw [Nat.add_zero, writeSeq, writeSeq_lt _ _ _ _ (by omega),
            if_pos rfl, List.getD_cons_zero]
      | succ j =>
          rw [List.length_cons] at h
          rw [writeSeq, show addr + (j + 1) = (addr + 1) + j by omega,
            ih _ _ _ (by omega), List.getD_cons_succ]

/-- `TaskInfo` (process.rs lines 22-30): status, per-syscall counters,
total running time in milliseconds. -/
structure TaskInfo where
  status : TaskStatus
  syscall_times : List Nat
  time : Nat
deriving DecidableEq, Repr

/-- Modelled from the spec: the numeric tag stored for the `TaskStatus`
enum (its Rust definition lives in the task module, outside the covered
sources); the concrete tag values are immaterial here, only that the tag
is the first word of the record. -/
def statusTag : TaskStatus → Nat
  | TaskStatus.Ready => 0
  | TaskStatus.Running => 1
  | TaskStatus.Exited => 2

/-- Wire layout of the task-info record (spec §6): the status tag, then
the full syscall-count table, then the elapsed-milliseconds word. -/
def encodeTaskInfo (ti : TaskInfo) : List Nat :=
  statusTag ti.status :: ti.syscall_times ++ [ti.time]

/-- `sys_task_info` (process.rs lines 64-76): translate `ti` through the
current address space, store the record built from the current task's
status (`get_current_status()`), its syscall table
(`get_syscall_times()`), and `(get_time_us() - start_time) / 1000`;
return `0`.  The current task's fields are parameters, read through the
Processor accessors. -/
def sys_task_info (timer : Nat → Nat) (token : Nat) (translate : Nat → Nat → Nat)
    (mem : Mem) (status : TaskStatus) (times : List Nat) (start : Nat)
    (ti : Nat) : Mem × Int :=
  let pa := translate token ti
  (writeSeq mem pa
    (encodeTaskInfo
      { status := status, syscall_times := times, time := (timer 0 - start) / 1000 }), 0)

/-- C5: `sys_task_info` returns `0` and writes at the translated address
the status tag, then the full syscall-count table of length
`MAX_SYSCALL_NUM`, then the elapsed milliseconds `(us - start_time) /
1000` for the single timer sample `us`, leaving every other cell
unchanged; under the monotonic-timer hypothesis `start ≤ us` the
milliseconds word equals the integer `(us - start) / 1000`. -/
theorem c5_sys_task_info_record (timer : Nat → Nat) (token : Nat)
    (translate : Nat → Nat → Nat) (mem : Mem) (status : TaskStatus)
    (times : List Nat) (start : Nat) (ti : Nat)
    (hlen : times.length = MAX_SYSCALL_NUM) (hst : start ≤ timer 0) :
    (sys_task_info timer token translate mem status times start ti).2 = 0 ∧
    (sys_task_info timer token translate mem status times start ti).1
      (translate token ti) = statusTag status ∧
    (∀ i, i < MAX_SYSCALL_NUM →
      (sys_task_info timer token translate mem status times start ti).1
        (translate token ti + 1 + i) = times.getD i 0) ∧
    (sys_task_info timer token translate mem status times start ti).1
      (translate token ti + 1 + MAX_SYSCALL_NUM) = (timer 0 - start) / 1000 ∧
    (((sys_task_info timer token translate mem status times start ti).1
      (translate token ti + 1 + MAX_SYSCALL_NUM) : Int) =
      ((timer 0 : Int) - (start : Int)) / 1000) ∧
    (∀ a, a < translate token ti ∨
        translate token ti + MAX_SYSCALL_NUM + 2 ≤ a →
      (sys_task_info timer token translate mem status times start ti).1 a = mem a) ∧
    (∀ timer₂ : Nat → Nat, timer₂ 0 = timer 0 →
      sys_task_info timer₂ token translate mem status times start ti =
        sys_task_info timer token translate mem status times start ti) := by
  have hr : sys_task_info timer token translate mem status times start ti =
      (writeSeq mem (translate token ti)
        (statusTag status :: (times ++ [(timer 0 - start) / 1000])), 0) := rfl
  have hL : (statusTag status :: (times ++ [(timer 0 - start) / 1000])).length =
      MAX_SYSCALL_NUM + 2 := by
    simp [hlen]
  have htime : (sys_task_info timer token translate mem status times start ti).1
      (translate token ti + 1 + MAX_SYSCALL_NUM) = (timer 0 - start) / 1000 := by
    rw [hr]
    have h := writeSeq_get (statusTag status :: (times ++ [(timer 0 - start) / 1000]))
      mem (translate token ti) (MAX_SYSCALL_NUM + 1) (by rw [hL]; omega)
    rw [show translate token ti + (MAX_SYSCALL_NUM + 1) =
      translate token ti + 1 + MAX_SYSCALL_NUM by omega, List.getD_cons_succ,
      List.getD_append_right _ _ _ _ (by omega), hlen, Nat.sub_self,
      List.getD_cons_zero] at h
    exact h
  refine ⟨by rw [hr], ?_, ?_, htime, ?_, ?_, ?_⟩
  · rw [hr]
    have h := writeSeq_get (statusTag status :: (times ++ [(timer 0 - start) / 1000]))
      mem (translate token ti) 0 (by rw [hL]; omega)
    rw [Nat.add_zero, List.getD_cons_zero] at h
    exact h
  · intro i hi
    rw [hr]
    have h := writeSeq_get (statusTag status :: (times ++ [(timer 0 - start) / 1000]))
      mem (translate token ti) (i + 1) (by rw [hL]; omega)
    rw [show translate token ti + (i + 1) = translate token ti + 1 + i by omega,
      List.getD_cons_succ, List.getD_append _ _ _ _ (by omega)] at h
    exact h
  · rw [htime, Int.natCast_div, Nat.cast_sub hst]
    norm_num
  · intro a ha
    rw [hr]
    rcases ha with hlo | hhi
    · exact writeSeq_lt _ _ _ _ hlo
    · exact writeSeq_ge _ _ _ _ (by rw [hL]; omega)
  · intro timer₂ h
    simp only [sys_task_info, h]

theorem c5_sys_task_info_record_witness :
    (sys_task_info (fun _ => 5000) 0 (fun _ p => p) (fun _ => 9)
      TaskStatus.Running (List.replicate 500 0) 2000 100).2 = 0 ∧
    (sys_task_info (fun _ => 5000) 0 (fun _ p => p) (fun _ => 9)
      TaskStatus.Running (List.replicate 500 0) 2000 100).1 100 =
      statusTag TaskStatus.Running ∧
    (sys_task_info (fun _ => 5000) 0 (fun _ p => p) (fun _ => 9)
      TaskStatus.Running (List.replicate 500 0) 2000 100).1 (100 + 1 + 7) =
      (List.replicate 500 0).getD 7 0 ∧
    (sys_task_info (fun _ => 5000) 0 (fun _ p => p) (fun _ => 9)
      TaskStatus.Running (List.replicate 500 0) 2000 100).1
      (100 + 1 + MAX_SYSCALL_NUM) = (5000 - 2000) / 1000 :=
  ⟨(c5_sys_task_info_record (fun _ => 5000) 0 (fun _ p => p) (fun _ => 9)
      TaskStatus.Running (List.replicate 500 0) 2000 100
      (by rw [List.length_replicate, MAX_SYSCALL_NUM]) (by norm_num)).1,
   (c5_sys_task_info_record (fun _ => 5000) 0 (fun _ p => p) (fun _ => 9)
      TaskStatus.Running (List.replicate 500 0) 2000 100
      (by rw [List.length_replicate, MAX_SYSCALL_NUM]) (by norm_num)).2.1,
   (c5_sys_task_info_record (fun _ => 5000) 0 (fun _ p => p) (fun _ => 9)
      TaskStatus.Running (List.replicate 500 0) 2000 100
      (by rw [List.length_replicate, MAX_SYSCALL_NUM]) (by norm_num)).2.2.1 7
      (by norm_num [MAX_SYSCALL_NUM]),
   (c5_sys_task_info_record (fun _ => 5000) 0 (fun _ p => p) (fun _ => 9)
      TaskStatus.Running (List.replicate 500 0) 2000 100
      (by rw [List.length_replicate, MAX_SYSCALL_NUM]) (by norm_num)).2.2.2.1⟩

/-- C6: `sys_munmap` returns `-1` independently of the delegate whenever
`start` is not page-aligned, and exactly the delegate's result when it
is. -/
theorem c6_sys_munmap_validation (start len : Nat) (delegate : Nat → Nat → Int) :
    (start % PAGE_SIZE ≠ 0 →
      sys_munmap delegate start len = -1 ∧
      ∀ d₂ : Nat → Nat → Int, sys_munmap d₂ start len = -1) ∧
    (start % PAGE_SIZE = 0 →
      sys_munmap delegate start len = delegate start len) := by
  constructor
  · intro hmis
    exact ⟨by rw [sys_munmap, if_pos hmis],
      fun d₂ => by rw [sys_munmap, if_pos hmis]⟩
  · intro hal
    rw [sys_munmap, if_neg (by simpa using hal)]

theorem c6_sys_munmap_validation_witness :
    sys_munmap (fun _ _ => 3) 5 10 = -1 ∧
    sys_munmap (fun _ _ => 3) 8192 10 = 3 :=
  ⟨((c6_sys_munmap_validation 5 10 (fun _ _ => 3)).1 (by norm_num [PAGE_SIZE])).1,
   (c6_sys_munmap_validation 8192 10 (fun _ _ => 3)).2 (by norm_num [PAGE_SIZE])⟩

/-! ## The Processor object and its accessors (C7, C10)

A structure-level model of `Processor` (processor.rs lines 16-22) with
the accessors of lines 49-82.  A `current().unwrap()` on an empty slot is
a panic, modelled as `none`; the TCB-level operations reached through a
live `current` are function parameters. -/

/-- Modelled from the spec (§3): the TCB fields this core's accessors
read and mutate (the TCB type itself lives in the task module, outside
the covered sources). -/
structure TaskControlBlock where
  task_status : TaskStatus
  start_time : Nat
  syscall_times : List Nat
deriving DecidableEq, Repr

/-- Saved-register context snapshot (`TaskContext`); opaque to this core,
only stored and moved whole. -/
structure TaskContext where
  snapshot : Nat
deriving DecidableEq, Repr

/-- `Processor` (processor.rs lines 16-22). -/
structure Processor where
  current : Option TaskControlBlock
  idle_task_cx : TaskContext
deriving DecidableEq, Repr

/-- `Processor::mmap_current_task` (processor.rs lines 49-54); `delegate`
models the TCB-level `task.mmap`. -/
def Processor.mmap_current_task (p : Processor)
    (delegate : TaskControlBlock → Nat → Nat → Nat → Int)
    (start len prot : Nat) : Int :=
  match p.current with
  | none => -1
  | some task => delegate task start len prot

/-- `Processor::munmap_current_task` (processor.rs lines 57-62). -/
def Processor.munmap_current_task (p : Processor)
    (delegate : TaskControlBlock → Nat → Nat → Int) (start len : Nat) : Int :=
  match p.current with
  | none => -1
  | some task => delegate task start len

/-- `Processor::current_status` (processor.rs lines 65-67):
`self.current().unwrap().task_status()`; the `unwrap` panic on an empty
slot is `none`. -/
def Processor.current_status (p : Processor) : Option TaskStatus :=
  p.current.map TaskControlBlock.task_status

/-- `Processor::syscall_times` (processor.rs lines 70-72). -/
def Processor.syscall_times (p : Processor) : Option (List Nat) :=
  p.current.map TaskControlBlock.syscall_times

/-- Modelled from the spec: the TCB-level increment behind
`add_syscall_times` bumps the counter of the given syscall id. -/
def bumpSyscall (times : List Nat) (id : Nat) : List Nat :=
  times.set id (times.getD id 0 + 1)

/-- `Processor::add_syscall_times` (processor.rs lines 75-77):
`self.current().unwrap().add_syscall_times(id)`; returns the Processor
with the mutated current TCB, or `none` for the `unwrap` panic. -/
def Processor.add_syscall_times (p : Processor) (id : Nat) : Option Processor :=
  p.current.map fun t =>
    { p with current := some { t with syscall_times := bumpSyscall t.syscall_times id } }

/-- `Processor::start_time` (processor.rs lines 80-82). -/
def Processor.start_time (p : Processor) : Option Nat :=
  p.current.map TaskControlBlock.start_time

/-- C7: with an empty `current` slot, the mmap/munmap delegates return
`-1` for every argument tuple and independently of the delegate (no TCB
is touched), while `current_status`, `syscall_times`,
`add_syscall_times` and `start_time` all panic (`none`); with a current
task present, none of them panics. -/
theorem c7_no_current_task (p : Processor) :
    (p.current = none →
      (∀ d : TaskControlBlock → Nat → Nat → Nat → Int, ∀ start len prot,
        p.mmap_current_task d start len prot = -1) ∧
      (∀ d : TaskControlBlock → Nat → Nat → Int, ∀ start len,
        p.munmap_current_task d start len = -1) ∧
      p.current_status = none ∧ p.syscall_times = none ∧
      (∀ id, p.add_syscall_times id = none) ∧ p.start_time = none) ∧
    (∀ t, p.current = some t →
      p.current_status.isSome ∧ p.syscall_times.isSome ∧
      (∀ id, (p.add_syscall_times id).isSome) ∧ p.start_time.isSome) := by
  constructor
  · intro hnone
    refine ⟨?_, ?_, ?_, ?_, ?_, ?_⟩ <;>
      simp [Processor.mmap_current_task, Processor.munmap_current_task,
        Processor.current_status, Processor.syscall_times,
        Processor.add_syscall_times, Processor.start_time, hnone]
  · intro t ht
    refine ⟨?_, ?_, ?_, ?_⟩ <;>
      simp [Processor.current_status, Processor.syscall_times,
        Processor.add_syscall_times, Processor.start_time, ht]

theorem c7_no_current_task_witness :
    (Processor.mk none ⟨0⟩).mmap_current_task (fun _ _ _ _ => 9) 0 0 1 = -1 ∧
    (Processor.mk none ⟨0⟩).munmap_current_task (fun _ _ _ => 9) 0 0 = -1 ∧
    (Processor.mk none ⟨0⟩).current_status = none ∧
    (Processor.mk none ⟨0⟩).start_time = none ∧
    (Processor.mk (some ⟨TaskStatus.Running, 5, []⟩) ⟨0⟩).current_status.isSome :=
  ⟨((c7_no_current_task (Processor.mk none ⟨0⟩)).1 rfl).1 (fun _ _ _ _ => 9) 0 0 1,
   ((c7_no_current_task (Processor.mk none ⟨0⟩)).1 rfl).2.1 (fun _ _ _ => 9) 0 0,
   ((c7_no_current_task (Processor.mk none ⟨0⟩)).1 rfl).2.2.1,
   ((c7_no_current_task (Processor.mk none ⟨0⟩)).1 rfl).2.2.2.2.2,
   ((c7_no_current_task (Processor.mk (some ⟨TaskStatus.Running, 5, []⟩) ⟨0⟩)).2
      ⟨TaskStatus.Running, 5, []⟩ rfl).1⟩

/-! ## `sys_exit` (C8) -/

/-- Possible outcomes of a kernel-side control path: a normal return to
the caller with a value, a control transfer that never comes back (the
exit path switching away forever), or a kernel panic. -/
inductive ControlOutcome where
  | returns (v : Int)
  | switchedAway
  | panicked
deriving DecidableEq, Repr

/-- `sys_exit` (process.rs lines 33-37): delegate to the external
`exit_current_and_run_next()` (parameter `exitPath` is that path's
behaviour) and hit `panic!("Unreachable in sys_exit!")` if control ever
comes back from the delegation. -/
def sys_exit (_exit_code : Int) (exitPath : ControlOutcome) : ControlOutcome :=
  match exitPath with
  | ControlOutcome.returns _ => ControlOutcome.panicked
  | o => o

/-- C8: `sys_exit` never returns normally to its caller, whatever the
delegated exit path does; under the contract that the exit path never
returns, the outcome is exactly the delegated transfer, and if control
does come back past the delegation the post-delegation branch aborts. -/
theorem c8_sys_exit_never_returns (exit_code : Int) (exitPath : ControlOutcome) :
    (∀ v, sys_exit exit_code exitPath ≠ ControlOutcome.returns v) ∧
    (exitPath = ControlOutcome.switchedAway →
      sys_exit exit_code exitPath = ControlOutcome.switchedAway) ∧
    (∀ v, exitPath = ControlOutcome.returns v →
      sys_exit exit_code exitPath = ControlOutcome.panicked) := by
  cases exitPath <;> simp [sys_exit]

theorem c8_sys_exit_never_returns_witness :
    (∀ v, sys_exit 0 ControlOutcome.switchedAway ≠ ControlOutcome.returns v) ∧
    sys_exit 0 ControlOutcome.switchedAway = ControlOutcome.switchedAway :=
  ⟨(c8_sys_exit_never_returns 0 ControlOutcome.switchedAway).1,
   (c8_sys_exit_never_returns 0 ControlOutcome.switchedAway).2.1 rfl⟩

/-! ## `schedule` and the context-switch protocol (C10) -/

/-- Location of a saved context: the Processor's own `idle_task_cx`
field, or a task-owned context slot (such as the caller-supplied
`switched_task_cx_ptr` of `schedule`). -/
inductive CtxLoc where
  | idle
  | taskSlot (id : Nat)
deriving DecidableEq, Repr

/-- Machine state for the context-switch protocol: the Processor, the
task-owned context slots, and the executing flow's live machine state. -/
structure MachineState where
  proc : Processor
  task_cx : Nat → TaskContext
  cpu : TaskContext

/-- Read the context stored at a location. -/
def ctxRead (st : MachineState) (l : CtxLoc) : TaskContext :=
  match l with
  | CtxLoc.idle => st.proc.idle_task_cx
  | CtxLoc.taskSlot i => st.task_cx i

/-- Overwrite the context stored at a location. -/
def ctxWrite (st : MachineState) (l : CtxLoc) (c : TaskContext) : MachineState :=
  match l with
  | CtxLoc.idle => { st with proc := { st.proc with idle_task_cx := c } }
  | CtxLoc.taskSlot i => { st with task_cx := Function.update st.task_cx i c }

/-- `__switch(save, load)` (spec §4.1): store the executing flow's state
into `*save`, then resume from the state recorded in `*load`. -/
def switchCtx (st : MachineState) (save load : CtxLoc) : MachineState :=
  let st₂ := ctxWrite st save st.cpu
  { st₂ with cpu := ctxRead st₂ load }

/-- `schedule` (processor.rs lines 143-150): read the address of the
Processor's `idle_task_cx` and perform
`__switch(switched_task_cx_ptr, idle_task_cx_ptr)`. -/
def schedule (st : MachineState) (switched_task_cx : Nat) : MachineState :=
  switchCtx st (CtxLoc.taskSlot switched_task_cx) CtxLoc.idle

/-- C10: `schedule` leaves the whole Processor — in particular its
`current` slot — unchanged: it only reads `idle_task_cx` as the switch
target, saves the outgoing flow's state into the caller-supplied context
slot, and touches no other context slot. -/
theorem c10_schedule_frame (st : MachineState) (out : Nat) :
    (schedule st out).proc = st.proc ∧
    (schedule st out).proc.current = st.proc.current ∧
    (schedule st out).cpu = st.proc.idle_task_cx ∧
    (schedule st out).task_cx out = st.cpu ∧
    (∀ i, i ≠ out → (schedule st out).task_cx i = st.task_cx i) := by
  refine ⟨rfl, rfl, rfl, ?_, ?_⟩
  · simp [schedule, switchCtx, ctxWrite, ctxRead]
  · intro i hi
    simp [schedule, switchCtx, ctxWrite, ctxRead, Function.update, hi]

theorem c10_schedule_frame_witness :
    (schedule (MachineState.mk (Processor.mk none ⟨5⟩) (fun _ => ⟨0⟩) ⟨9⟩) 2).proc =
      Processor.mk none ⟨5⟩ ∧
    (schedule (MachineState.mk (Processor.mk none ⟨5⟩) (fun _ => ⟨0⟩) ⟨9⟩) 2).task_cx 3 =
      ⟨0⟩ :=
  ⟨(c10_schedule_frame (MachineState.mk (Processor.mk none ⟨5⟩) (fun _ => ⟨0⟩) ⟨9⟩) 2).1,
   (c10_schedule_frame (MachineState.mk (Processor.mk none ⟨5⟩) (fun _ => ⟨0⟩) ⟨9⟩) 2).2.2.2.2
      3 (by decide)⟩

end RCore
